import Mathlib

/-!
Verification development for the traceability-helper repository
(`src/tools/jira_sync.py`, `src/tools/extract_jira.py`,
`src/tools/export_metrics.py`).

The Python sources are shallowly embedded: strings are Lean `String`s
(ASCII text; Python's Unicode-aware `\b`, `\w`, `str.lower` coincide with
the ASCII behaviour on all inputs considered here), machine-level floats
of the metrics exporter are modelled by exact rationals, HTTP calls are
modelled by an explicit `World` of server responses together with a trace
of issued API calls, and `sys.exit` / annotations become explicit result
fields.
-/

/-! ## Character classes used by the two regular expressions

`jira_sync.extract_jira_keys` and `export_metrics.extract_jira_key` use
the pattern `\b([A-Z][A-Z0-9]{1,9}-[0-9]+)\b`;
`extract_jira.extract_keys` uses `[A-Z]+-\d+` (no word boundaries). -/

def isKeyUpper (c : Char) : Bool :=
  'A' ≤ c && c ≤ 'Z'

def isAsciiDigit (c : Char) : Bool :=
  '0' ≤ c && c ≤ '9'

def isKeyAlnum (c : Char) : Bool :=
  isKeyUpper c || isAsciiDigit c

/-- Python's `\w` (word character) restricted to ASCII:
letters, digits and underscore. -/
def isWordChar (c : Char) : Bool :=
  c.isAlpha || c.isDigit || c = '_'

/-! ## The bounded pattern of jira_sync.py / export_metrics.py

`re.findall(r"\b([A-Z][A-Z0-9]{1,9}-[0-9]+)\b", text)` scans `text` left
to right collecting non-overlapping matches.  For this particular pattern
the regex engine's greedy matching with backtracking is deterministic:

* `[A-Z0-9]{1,9}` must be followed by the literal `-`, and `-` is not in
  the class, so the only viable choice is the maximal run of
  `[A-Z0-9]` after the leading letter, and it must have length 1..9
  (a longer run leaves a class character, never `-`, as the next char);
* `[0-9]+` is followed by `\b`; shortening the maximal digit run leaves a
  digit (a word char) as the next character, so only the maximal run can
  satisfy the trailing boundary.

`matchKeyAt prevIsWord s` attempts a match at the start of `s`, where
`prevIsWord` says whether the character immediately before `s` is a word
character (used to decide the leading `\b`).  On success it returns the
matched characters and the remaining suffix. -/

def matchKeyAt (prevIsWord : Bool) : List Char → Option (List Char × List Char)
  | [] => none
  | c :: rest =>
    if prevIsWord then none
    else if !(isKeyUpper c) then none
    else if (rest.takeWhile isKeyAlnum).length < 1 then none
    else if 9 < (rest.takeWhile isKeyAlnum).length then none
    else
      match rest.dropWhile isKeyAlnum with
      | '-' :: rest2 =>
        if (rest2.takeWhile isAsciiDigit).isEmpty then none
        else
          match rest2.dropWhile isAsciiDigit with
          | [] =>
            some (c :: rest.takeWhile isKeyAlnum ++ '-' :: rest2.takeWhile isAsciiDigit, [])
          | d :: rest3 =>
            if isWordChar d then none
            else
              some (c :: rest.takeWhile isKeyAlnum ++ '-' :: rest2.takeWhile isAsciiDigit,
                    d :: rest3)
      | _ => none

/-- One scanning pass of `re.findall` for the bounded pattern: try a match
at the current position; on failure advance one character, on success emit
the match and continue right after it.  `fuel` is an upper bound on the
number of remaining characters (each step consumes at least one), so
`fuel = s.length` always suffices. -/
def findKeysAux : Nat → Bool → List Char → List (List Char)
  | 0, _, _ => []
  | _ + 1, _, [] => []
  | fuel + 1, prevIsWord, c :: rest =>
    match matchKeyAt prevIsWord (c :: rest) with
    | some (m, rest3) =>
      m :: findKeysAux fuel (match m.getLast? with
                             | some ch => isWordChar ch
                             | none => prevIsWord) rest3
    | none => findKeysAux fuel (isWordChar c) rest

/-- `re.findall(r"\b([A-Z][A-Z0-9]{1,9}-[0-9]+)\b", text)`. -/
def findBoundedKeys (text : String) : List String :=
  (findKeysAux text.data.length false text.data).map fun l => String.mk l

/-! ## jira_sync.JiraGitHubSync.extract_jira_keys

```python
self.valid_projects = os.environ.get("JIRA_PROJECT_KEYS", "").split(",")
...
def extract_jira_keys(self, text):
    pattern = r"\b([A-Z][A-Z0-9]{1,9}-[0-9]+)\b"
    keys = re.findall(pattern, text or "")
    if self.valid_projects:
        keys = [k for k in keys if k.split("-")[0] in self.valid_projects]
    return keys
```
-/

/-- Python `s.split(",")` on the character list: splits at every comma and
never returns an empty list (`"".split(",") == [""]`). -/
def splitCommaAux (acc : List Char) : List Char → List (List Char)
  | [] => [acc.reverse]
  | c :: rest =>
    if c = ',' then acc.reverse :: splitCommaAux [] rest
    else splitCommaAux (c :: acc) rest

/-- `os.environ.get("JIRA_PROJECT_KEYS", "").split(",")` — `env = none`
models the variable being unset. -/
def mkValidProjects (env : Option String) : List String :=
  (splitCommaAux [] (env.getD "").data).map fun l => String.mk l

/-- Python `k.split("-")[0]`: the part of `k` before the first hyphen. -/
def projectOfKey (k : String) : String :=
  String.mk (k.data.takeWhile fun c => !(c = '-'))

/-- `JiraGitHubSync.extract_jira_keys`.  `valid_projects` is the list the
constructor computed; `if self.valid_projects:` is Python list truthiness,
i.e. non-emptiness. -/
def extract_jira_keys (valid_projects : List String) (text : String) : List String :=
  let keys := findBoundedKeys text
  if valid_projects.isEmpty then keys
  else keys.filter fun k => valid_projects.contains (projectOfKey k)

/-- `JiraGitHubSync.get_first_jira_key(*texts)`. -/
def get_first_jira_key (valid_projects : List String) : List String → Option String
  | [] => none
  | t :: ts =>
    match extract_jira_keys valid_projects t with
    | [] => get_first_jira_key valid_projects ts
    | k :: _ => some k

/-! ## extract_jira.extract_keys

```python
KEY_REGEX = re.compile(r"[A-Z]+-\d+")
def extract_keys(text):
    return KEY_REGEX.findall(text or "")
```

Again greedy matching is deterministic: `[A-Z]+` must be followed by `-`,
which is not an upper-case letter, so only the maximal run works. -/

def matchSimpleAt : List Char → Option (List Char × List Char)
  | [] => none
  | c :: rest =>
    if !(isKeyUpper c) then none
    else
      match rest.dropWhile isKeyUpper with
      | '-' :: rest2 =>
        if (rest2.takeWhile isAsciiDigit).isEmpty then none
        else
          some (c :: rest.takeWhile isKeyUpper ++ '-' :: rest2.takeWhile isAsciiDigit,
                rest2.dropWhile isAsciiDigit)
      | _ => none

def findSimpleAux : Nat → List Char → List (List Char)
  | 0, _ => []
  | _ + 1, [] => []
  | fuel + 1, c :: rest =>
    match matchSimpleAt (c :: rest) with
    | some (m, rest3) => m :: findSimpleAux fuel rest3
    | none => findSimpleAux fuel rest

/-- `extract_jira.extract_keys`. -/
def extract_keys (text : String) : List String :=
  (findSimpleAux text.data.length text.data).map fun l => String.mk l

/-! ## Shape predicates, taken from the words of the specification -/

/-- A hyphen followed by one or more digits, to the end of the string. -/
def afterHyphenDigits : List Char → Bool
  | [] => false
  | c :: ds => c = '-' && !ds.isEmpty && ds.all isAsciiDigit

/-- Full match of `[A-Z][A-Z0-9]{1,9}-[0-9]+`: an upper-case letter, then
1 to 9 further upper-case alphanumerics (so 2–10 characters before the
hyphen), a hyphen, and one or more digits to the end. -/
def keyShape : List Char → Bool
  | [] => false
  | c :: rest =>
    isKeyUpper c &&
    decide (1 ≤ (rest.takeWhile isKeyAlnum).length) &&
    decide ((rest.takeWhile isKeyAlnum).length ≤ 9) &&
    afterHyphenDigits (rest.dropWhile isKeyAlnum)

/-- Full match of `[A-Z]+-[0-9]+`: one or more upper-case letters, a
hyphen, one or more digits to the end. -/
def simpleShape : List Char → Bool
  | [] => false
  | c :: rest =>
    isKeyUpper c && afterHyphenDigits (rest.dropWhile isKeyUpper)


theorem takeWhile_all_append {α : Type} (p : α → Bool) (xs : List α) (y : α)
    (ys : List α) (hxs : xs.all p = true) (hy : p y = false) :
    (xs ++ y :: ys).takeWhile p = xs := by
  induction xs with
  | nil => simp [List.takeWhile_cons, hy]
  | cons a as ih =>
    simp only [List.all_cons, Bool.and_eq_true] at hxs
    simp [List.takeWhile_cons, hxs.1, ih hxs.2]

theorem dropWhile_all_append {α : Type} (p : α → Bool) (xs : List α) (y : α)
    (ys : List α) (hxs : xs.all p = true) (hy : p y = false) :
    (xs ++ y :: ys).dropWhile p = y :: ys := by
  induction xs with
  | nil => simp [List.dropWhile_cons, hy]
  | cons a as ih =>
    simp only [List.all_cons, Bool.and_eq_true] at hxs
    simp [List.dropWhile_cons, hxs.1, ih hxs.2]

theorem keyShape_cons (c : Char) (rest : List Char) :
    keyShape (c :: rest) = (isKeyUpper c &&
      decide (1 ≤ (rest.takeWhile isKeyAlnum).length) &&
      decide ((rest.takeWhile isKeyAlnum).length ≤ 9) &&
      afterHyphenDigits (rest.dropWhile isKeyAlnum)) := rfl

theorem afterHyphenDigits_cons (y : Char) (ds : List Char) :
    afterHyphenDigits (y :: ds) = (decide (y = '-') && !ds.isEmpty && ds.all isAsciiDigit) := rfl

theorem matchKeyAt_shape (pw : Bool) (s m rest : List Char)
    (h : matchKeyAt pw s = some (m, rest)) : keyShape m = true := by
  match s with
  | [] => simp [matchKeyAt] at h
  | c :: cs =>
    rw [matchKeyAt] at h
    repeat' split at h
    all_goals
      first
      | exact Option.noConfusion h
      | (simp only [Option.some.injEq, Prod.mk.injEq] at h
         obtain ⟨hm, hr⟩ := h
         subst hm
         have hA : ((List.takeWhile isKeyAlnum cs).all isKeyAlnum) = true :=
           List.all_takeWhile
         rw [List.cons_append, keyShape_cons, takeWhile_all_append _ _ _ _ hA (by decide),
             dropWhile_all_append _ _ _ _ hA (by decide), afterHyphenDigits_cons]
         simp only [Bool.and_eq_true, decide_eq_true_eq]
         refine ⟨⟨⟨?_, ?_⟩, ?_⟩, ⟨?_, ?_⟩, ?_⟩ <;>
           first
           | omega
           | rfl
           | exact List.all_takeWhile
           | simp_all)

theorem simpleShape_cons (c : Char) (rest : List Char) :
    simpleShape (c :: rest) =
      (isKeyUpper c && afterHyphenDigits (rest.dropWhile isKeyUpper)) := rfl

theorem matchSimpleAt_shape (s m rest : List Char)
    (h : matchSimpleAt s = some (m, rest)) : simpleShape m = true := by
  match s with
  | [] => simp [matchSimpleAt] at h
  | c :: cs =>
    rw [matchSimpleAt] at h
    repeat' split at h
    all_goals
      first
      | exact Option.noConfusion h
      | (simp only [Option.some.injEq, Prod.mk.injEq] at h
         obtain ⟨hm, hr⟩ := h
         subst hm
         have hA : ((List.takeWhile isKeyUpper cs).all isKeyUpper) = true :=
           List.all_takeWhile
         rw [List.cons_append, simpleShape_cons,
             dropWhile_all_append _ _ _ _ hA (by decide), afterHyphenDigits_cons]
         simp only [Bool.and_eq_true, decide_eq_true_eq]
         refine ⟨?_, ⟨?_, ?_⟩, ?_⟩ <;>
           first
           | rfl
           | exact List.all_takeWhile
           | simp_all)

theorem findKeysAux_shape : ∀ (fuel : Nat) (pw : Bool) (s : List Char),
    ∀ m ∈ findKeysAux fuel pw s, keyShape m = true := by
  intro fuel
  induction fuel with
  | zero => intro pw s m hm; simp [findKeysAux] at hm
  | succ n ih =>
    intro pw s m hm
    match s with
    | [] => simp [findKeysAux] at hm
    | c :: cs =>
      rw [findKeysAux] at hm
      cases hmk : matchKeyAt pw (c :: cs) with
      | none => rw [hmk] at hm; exact ih _ _ _ hm
      | some pr =>
        obtain ⟨m0, r0⟩ := pr
        rw [hmk] at hm
        rcases List.mem_cons.mp hm with h1 | h2
        · exact h1 ▸ matchKeyAt_shape pw (c :: cs) m0 r0 hmk
        · exact ih _ _ _ h2

theorem findSimpleAux_shape : ∀ (fuel : Nat) (s : List Char),
    ∀ m ∈ findSimpleAux fuel s, simpleShape m = true := by
  intro fuel
  induction fuel with
  | zero => intro s m hm; simp [findSimpleAux] at hm
  | succ n ih =>
    intro s m hm
    match s with
    | [] => simp [findSimpleAux] at hm
    | c :: cs =>
      rw [findSimpleAux] at hm
      cases hmk : matchSimpleAt (c :: cs) with
      | none => rw [hmk] at hm; exact ih _ _ hm
      | some pr =>
        obtain ⟨m0, r0⟩ := pr
        rw [hmk] at hm
        rcases List.mem_cons.mp hm with h1 | h2
        · exact h1 ▸ matchSimpleAt_shape (c :: cs) m0 r0 hmk
        · exact ih _ _ h2

theorem findBoundedKeys_shape (text : String) :
    ∀ k ∈ findBoundedKeys text, keyShape k.data = true := by
  intro k hk
  rw [findBoundedKeys] at hk
  obtain ⟨l, hl, rfl⟩ := List.mem_map.mp hk
  exact findKeysAux_shape _ _ _ l hl

/-! ## Claim C1 -/

/-- C1 (amended): every key returned by `jira_sync.extract_jira_keys` fully
matches `[A-Z][A-Z0-9]{1,9}-[0-9]+` (uppercase first letter, 2 to 10
alphanumerics before the hyphen, digits after it), for every input text
and every configured allow-list.  The claim as stated is false for
`extract_jira.extract_keys`, whose pattern is `[A-Z]+-[0-9]+`: its keys
match that simpler shape, so lowercase candidates are still never
returned, but single-letter projects ("A-1") and overlong prefixes
("ABCDEFGHIJK-1") are returned. -/
theorem C1_extract_keys_shape (valid_projects : List String) (text : String) :
    (∀ k ∈ extract_jira_keys valid_projects text, keyShape k.data = true) ∧
    (∀ k ∈ extract_keys text, simpleShape k.data = true) := by
  constructor
  · intro k hk
    simp only [extract_jira_keys] at hk
    split at hk
    · exact findBoundedKeys_shape text k hk
    · exact findBoundedKeys_shape text k (List.mem_filter.mp hk).1
  · intro k hk
    rw [extract_keys] at hk
    obtain ⟨l, hl, rfl⟩ := List.mem_map.mp hk
    exact findSimpleAux_shape _ _ l hl

/-- C1 witness: the theorem applied at concrete inputs on which both
extractors return a key. -/
theorem C1_extract_keys_shape_witness :
    keyShape (String.data "SECO-42") = true ∧ simpleShape (String.data "A-1") = true :=
  ⟨(C1_extract_keys_shape ["SECO"] "feature/SECO-42-fix").1 "SECO-42" (by decide),
   (C1_extract_keys_shape [] "A-1").2 "A-1" (by decide)⟩

/-- C1 counterexample: `extract_keys` (extract_jira.py) returns "A-1" and
"ABCDEFGHIJK-1", neither of which matches the claimed shape
`[A-Z][A-Z0-9]{1,9}-[0-9]+`. -/
theorem C1_counterexample :
    extract_keys "A-1" = ["A-1"] ∧ keyShape (String.data "A-1") = false ∧
    extract_keys "ABCDEFGHIJK-1" = ["ABCDEFGHIJK-1"] ∧
    keyShape (String.data "ABCDEFGHIJK-1") = false := by decide

/-! ## Claim C2 -/

/-- C2 (code bug): `os.environ.get("JIRA_PROJECT_KEYS", "").split(",")`
yields `[""]` when the variable is unset; a non-empty Python list is
truthy, so `if self.valid_projects:` is always taken and the allow-list
filter is applied even when no allow-list was configured, removing every
key (no project prefix equals `""`).  This contradicts the code's own
comment "Filter by valid projects if configured" and the claim: with no
configuration, `extract_jira_keys` returns `[]` instead of every
pattern-matching key. -/
theorem C2_code_bug_eval :
    mkValidProjects none = [""] ∧
    findBoundedKeys "SECO-42" = ["SECO-42"] ∧
    extract_jira_keys (mkValidProjects none) "SECO-42" = [] := by decide

/-! ## The Sync Engine (jira_sync.JiraGitHubSync)

HTTP effects are modelled by a `World` of server responses (status codes
and response bodies) together with an explicit trace of issued API calls.
A run of `process_pull_request` touches a single Jira issue, so the world
holds the responses for that issue.  Raised exceptions inside the
`try/except` blocks behave like non-success status codes for the purposes
of the claims and are modelled as such. -/

/-- A Jira REST call issued by the tool (mutations are the `post…` ones). -/
inductive ApiCall where
  | verifyIssue (key : String)
  | getRemoteLinks (key : String)
  | postRemoteLink (key : String) (url : String)
  | postComment (key : String) (text : String)
  | getTransitions (key : String)
  | postTransition (key : String) (id : String)
deriving DecidableEq, Repr

/-- A workflow transition as returned by `GET .../transitions`. -/
structure JTransition where
  id : String
  name : String
deriving DecidableEq, Repr

/-- The part of a Jira remote link the code reads and writes:
`link["object"]["url"]` plus the payload fields built at creation. -/
structure LinkObject where
  url : String
  title : String
  resolved : Bool
  statusIconUrl : String
  statusIconTitle : String
  globalId : String
deriving DecidableEq, Repr

/-- Server responses for the one issue a run touches. -/
structure World where
  issueStatus : Nat
  linksGetOk : Bool
  links : List LinkObject
  linkPostStatus : Nat
  commentPostStatus : Nat
  transGetStatus : Nat
  transitions : List JTransition
  transPostStatus : Nat
deriving DecidableEq, Repr

/-- The `pr_data` dict built in `process_pull_request`. -/
structure PRData where
  number : Nat
  title : String
  body : String
  htmlUrl : String
  state : String
  merged : Bool
  headRef : String
  baseRef : String
  repo : String
  user : String
  mergeCommitSha : String
deriving DecidableEq, Repr

/-- The environment configuration the engine reads:
`JIRA_PROJECT_KEYS` (already split), `JIRA_TRANSITION_IN_REVIEW`,
`JIRA_TRANSITION_DONE` (`none` models an unset variable). -/
structure SyncConfig where
  validProjects : List String
  transitionInReview : Option String
  transitionDone : Option String
deriving DecidableEq, Repr

/-- Python truthiness of `os.environ.get(name)`: present and non-empty. -/
def pyTruthyStr : Option String → Bool
  | none => false
  | some s => !(s = "")

/-- `JiraGitHubSync.verify_issue_exists`: `GET issue`, true iff 200
(exceptions return false, like any non-200 status here). -/
def verify_issue_exists (w : World) (key : String) : Bool × List ApiCall :=
  (w.issueStatus = 200, [ApiCall.verifyIssue key])

/-- `JiraGitHubSync._get_status_icon`. -/
def _get_status_icon (state : String) (merged : Bool) : String :=
  if merged then
    "https://github.githubassets.com/images/icons/emoji/unicode/2705.png"
  else if state = "open" then
    "https://github.githubassets.com/images/icons/emoji/unicode/1f7e2.png"
  else
    "https://github.githubassets.com/images/icons/emoji/unicode/1f534.png"

/-- `JiraGitHubSync._get_status_text`. -/
def _get_status_text (state : String) (merged : Bool) : String :=
  if merged then "Merged"
  else if state = "open" then "Open"
  else "Closed"

/-- The link payload `create_or_update_remote_link` posts. -/
def linkPayload (pr : PRData) : LinkObject :=
  { url := pr.htmlUrl
    title := "GitHub PR #" ++ toString pr.number ++ " - " ++ pr.title
    resolved := pr.merged
    statusIconUrl := _get_status_icon pr.state pr.merged
    statusIconTitle := _get_status_text pr.state pr.merged
    globalId := "github-pr-" ++ pr.repo ++ "-" ++ toString pr.number }

/-- `JiraGitHubSync.create_or_update_remote_link`: fetch existing links
(if the GET raises, the check is skipped); if one has the PR's
`html_url`, report success without creating; otherwise POST the payload
(success iff status 200/201, in which case the server state gains the
link).  Returns (result, server links afterwards, calls made). -/
def create_or_update_remote_link (w : World) (key : String) (pr : PRData) :
    Bool × List LinkObject × List ApiCall :=
  if w.linksGetOk && w.links.any (fun l => l.url = pr.htmlUrl) then
    (true, w.links, [ApiCall.getRemoteLinks key])
  else if w.linkPostStatus = 200 ∨ w.linkPostStatus = 201 then
    (true, w.links ++ [linkPayload pr],
     [ApiCall.getRemoteLinks key, ApiCall.postRemoteLink key pr.htmlUrl])
  else
    (false, w.links,
     [ApiCall.getRemoteLinks key, ApiCall.postRemoteLink key pr.htmlUrl])

/-- `JiraGitHubSync.add_comment`: POST, success iff status 200/201. -/
def add_comment (w : World) (key : String) (text : String) : Bool × List ApiCall :=
  (w.commentPostStatus = 200 ∨ w.commentPostStatus = 201, [ApiCall.postComment key text])

/-- Python `str.lower()` (ASCII case folding, as used on transition
names). -/
def pyLower (s : String) : String :=
  String.mk (s.data.map Char.toLower)

/-- The loop in `transition_issue`: first transition whose `id` equals the
target string or whose name matches case-insensitively. -/
def findTransition (target : String) : List JTransition → Option JTransition
  | [] => none
  | t :: ts =>
    if t.id = target ∨ pyLower t.name = pyLower target then some t
    else findTransition target ts

/-- `JiraGitHubSync.transition_issue`: empty target is a no-call success;
fetch available transitions (non-200 is a failure result); a missing
match is a success without the execution POST ("not an error, just not
applicable"); otherwise execute, success iff status 200/204.
(`if not transition_id` is Python falsiness, hence the `t.id = ""` case.) -/
def transition_issue (w : World) (key : String) (target : String) :
    Bool × List ApiCall :=
  if target = "" then (true, [])
  else if !(w.transGetStatus = 200) then (false, [ApiCall.getTransitions key])
  else
    match findTransition target w.transitions with
    | none => (true, [ApiCall.getTransitions key])
    | some t =>
      if t.id = "" then (true, [ApiCall.getTransitions key])
      else if w.transPostStatus = 200 ∨ w.transPostStatus = 204 then
        (true, [ApiCall.getTransitions key, ApiCall.postTransition key t.id])
      else
        (false, [ApiCall.getTransitions key, ApiCall.postTransition key t.id])

/-! ### Comment texts and CI annotations

The repository file stores the comment prefixes as mojibake of the
original emoji; the exact codepoints of `jira_sync.py` are reproduced
with escapes. -/

def openedComment (user url : String) : String :=
  "üîó Pull Request opened by " ++ user ++ ": " ++ url

def mergedComment (url sha : String) : String :=
  "‚úÖ Pull Request merged: " ++ url ++ "\nMerge commit: " ++ sha

def closedComment (url : String) : String :=
  "‚ùå Pull Request closed without merge: " ++ url

def readyComment (url : String) : String :=
  "üëÄ Pull Request ready for review: " ++ url

def noKeyNotice : String :=
  "::notice::No Jira key found in PR. Ensure branch name or PR title contains a valid Jira issue key."

def issueNotFoundAlert (key : String) : String :=
  "::error::Jira issue " ++ key ++ " not found. Please create the issue first."

/-- Outcome of one run of `process_pull_request`: the Jira calls issued in
order, the CI annotation lines printed, and the process exit code
(`sys.exit(1)` on verification failure, 0 otherwise). -/
structure SyncResult where
  calls : List ApiCall
  alerts : List String
  exitCode : Nat
deriving DecidableEq, Repr

/-- The action-dispatch part of `process_pull_request` (after link
creation): which comment / transition calls follow. -/
def actionCalls (cfg : SyncConfig) (w : World) (key : String) (action : String)
    (pr : PRData) : List ApiCall :=
  if action = "opened" then
    (add_comment w key (openedComment pr.user pr.htmlUrl)).2 ++
    (if pyTruthyStr cfg.transitionInReview then
       (transition_issue w key (cfg.transitionInReview.getD "")).2
     else [])
  else if action = "closed" then
    if pr.merged then
      (add_comment w key (mergedComment pr.htmlUrl pr.mergeCommitSha)).2 ++
      (if pyTruthyStr cfg.transitionDone then
         (transition_issue w key (cfg.transitionDone.getD "")).2
       else [])
    else
      (add_comment w key (closedComment pr.htmlUrl)).2
  else if action = "ready_for_review" then
    (add_comment w key (readyComment pr.htmlUrl)).2 ++
    (if pyTruthyStr cfg.transitionInReview then
       (transition_issue w key (cfg.transitionInReview.getD "")).2
     else [])
  else []

/-- `JiraGitHubSync.process_pull_request`, from the point where the event
is decoded into (`action`, `pr_data`): extract the first Jira key from
head ref, title, body; soft-skip with a notice when none; verify the
issue (hard failure, exit 1, on non-200); then create/update the remote
link and dispatch on the action. -/
def process_pull_request (cfg : SyncConfig) (w : World) (action : String)
    (pr : PRData) : SyncResult :=
  match get_first_jira_key cfg.validProjects [pr.headRef, pr.title, pr.body] with
  | none => { calls := [], alerts := [noKeyNotice], exitCode := 0 }
  | some key =>
    if !(verify_issue_exists w key).1 then
      { calls := (verify_issue_exists w key).2
        alerts := [issueNotFoundAlert key]
        exitCode := 1 }
    else
      { calls := (verify_issue_exists w key).2 ++
                 (create_or_update_remote_link w key pr).2.2 ++
                 actionCalls cfg w key action pr
        alerts := []
        exitCode := 0 }

/-- A call that mutates Jira state (link creation, comment, transition
execution). -/
def isMutation : ApiCall → Bool
  | ApiCall.postRemoteLink _ _ => true
  | ApiCall.postComment _ _ => true
  | ApiCall.postTransition _ _ => true
  | _ => false

/-- A posted-comment call. -/
def isCommentCall : ApiCall → Bool
  | ApiCall.postComment _ _ => true
  | _ => false

/-- A transition-related call (lookup or execution). -/
def isTransitionCall : ApiCall → Bool
  | ApiCall.getTransitions _ => true
  | ApiCall.postTransition _ _ => true
  | _ => false

/-- Number of links on the issue whose target URL is `url`. -/
def countUrl (links : List LinkObject) (url : String) : Nat :=
  (links.filter fun l => l.url = url).length

/-! ## Helper lemmas about call traces -/

theorem link_calls_classes (w : World) (key : String) (pr : PRData) :
    (create_or_update_remote_link w key pr).2.2.filter isCommentCall = [] ∧
    (create_or_update_remote_link w key pr).2.2.filter isTransitionCall = [] ∧
    ApiCall.getRemoteLinks key ∈ (create_or_update_remote_link w key pr).2.2 := by
  rw [create_or_update_remote_link]
  repeat' split
  all_goals simp [isCommentCall, isTransitionCall]

theorem trans_calls_no_comment (w : World) (key target : String) :
    (transition_issue w key target).2.filter isCommentCall = [] := by
  rw [transition_issue]
  repeat' split
  all_goals simp [isCommentCall]

theorem trans_calls_has_get (w : World) (key target : String) (h : ¬ target = "") :
    ApiCall.getTransitions key ∈ (transition_issue w key target).2 := by
  rw [transition_issue, if_neg h]
  repeat' split
  all_goals simp

theorem process_run_eq (cfg : SyncConfig) (w : World) (action : String)
    (pr : PRData) (key : String)
    (hk : get_first_jira_key cfg.validProjects [pr.headRef, pr.title, pr.body] = some key)
    (hv : w.issueStatus = 200) :
    process_pull_request cfg w action pr =
      { calls := [ApiCall.verifyIssue key] ++ (create_or_update_remote_link w key pr).2.2 ++
                 actionCalls cfg w key action pr
        alerts := []
        exitCode := 0 } := by
  simp only [process_pull_request, hk, verify_issue_exists, hv]
  simp

/-! ## Claim C3 -/

/-- C3: remote-link creation is idempotent.  When the existing-links GET
succeeds and the creation POST returns 201, starting from a state with no
link for the PR's URL: the first run succeeds and leaves exactly one link
with that URL, and a second run with the same PR URL finds it, issues
only the GET (skipping creation, hence still exactly one link), and
reports success. -/
theorem C3_remote_link_idempotent (w : World) (key : String) (pr : PRData)
    (hget : w.linksGetOk = true) (hpost : w.linkPostStatus = 201)
    (h0 : countUrl w.links pr.htmlUrl = 0) :
    (create_or_update_remote_link w key pr).1 = true ∧
    countUrl (create_or_update_remote_link w key pr).2.1 pr.htmlUrl = 1 ∧
    create_or_update_remote_link
        { w with links := (create_or_update_remote_link w key pr).2.1 } key pr =
      (true, (create_or_update_remote_link w key pr).2.1,
       [ApiCall.getRemoteLinks key]) := by
  have hfil : w.links.filter (fun l => l.url = pr.htmlUrl) = [] :=
    List.length_eq_zero.mp h0
  have hany : (w.links.any fun l => l.url = pr.htmlUrl) = false := by
    rw [List.any_eq_false]
    intro l hl
    simpa using List.filter_eq_nil_iff.mp hfil l hl
  have hrun1 : create_or_update_remote_link w key pr =
      (true, w.links ++ [linkPayload pr],
       [ApiCall.getRemoteLinks key, ApiCall.postRemoteLink key pr.htmlUrl]) := by
    rw [create_or_update_remote_link]
    rw [hget, hany]
    simp [hpost]
  refine ⟨by rw [hrun1], ?_, ?_⟩
  · rw [hrun1]
    simp only [countUrl, List.filter_append]
    rw [hfil]
    simp [linkPayload]
  · rw [hrun1]
    rw [create_or_update_remote_link]
    have : ((w.links ++ [linkPayload pr]).any fun l => l.url = pr.htmlUrl) = true := by
      simp [List.any_append, linkPayload]
    simp only [this, hget]
    simp

def c3World : World :=
  { issueStatus := 200, linksGetOk := true, links := [], linkPostStatus := 201,
    commentPostStatus := 201, transGetStatus := 200, transitions := [],
    transPostStatus := 204 }

def c3PR : PRData :=
  { number := 7, title := "Fix parsing", body := "", htmlUrl := "https://github.com/o/r/pull/7",
    state := "open", merged := false, headRef := "feature/SECO-1-x", baseRef := "main",
    repo := "o/r", user := "alice", mergeCommitSha := "" }

/-- C3 witness: the theorem applied to a concrete world with no existing
links. -/
theorem C3_witness :
    (create_or_update_remote_link c3World "SECO-1" c3PR).1 = true ∧
    countUrl (create_or_update_remote_link c3World "SECO-1" c3PR).2.1 c3PR.htmlUrl = 1 ∧
    create_or_update_remote_link
        { c3World with links := (create_or_update_remote_link c3World "SECO-1" c3PR).2.1 }
        "SECO-1" c3PR =
      (true, (create_or_update_remote_link c3World "SECO-1" c3PR).2.1,
       [ApiCall.getRemoteLinks "SECO-1"]) :=
  C3_remote_link_idempotent c3World "SECO-1" c3PR rfl rfl (by decide)

/-! ## Claim C4 -/

/-- C4: if issue verification fails (GET status not 200, which also
models an exception), the run exits with code 1, prints only the
`::error::` annotation, and the only API call made is the verification
GET — in particular no mutating (link/comment/transition) call occurs. -/
theorem C4_verify_gate (cfg : SyncConfig) (w : World) (action : String)
    (pr : PRData) (key : String)
    (hk : get_first_jira_key cfg.validProjects [pr.headRef, pr.title, pr.body] = some key)
    (hv : ¬ w.issueStatus = 200) :
    process_pull_request cfg w action pr =
      { calls := [ApiCall.verifyIssue key]
        alerts := [issueNotFoundAlert key]
        exitCode := 1 } ∧
    (∀ c ∈ (process_pull_request cfg w action pr).calls, isMutation c = false) ∧
    (∃ s, issueNotFoundAlert key = "::error::" ++ s) := by
  have hrun : process_pull_request cfg w action pr =
      { calls := [ApiCall.verifyIssue key]
        alerts := [issueNotFoundAlert key]
        exitCode := 1 } := by
    simp only [process_pull_request, hk, verify_issue_exists, hv]
    simp
  refine ⟨hrun, ?_, ?_⟩
  · rw [hrun]
    intro c hc
    simp only [List.mem_singleton] at hc
    subst hc
    rfl
  · refine ⟨"Jira issue " ++ (key ++ " not found. Please create the issue first."), ?_⟩
    rw [issueNotFoundAlert]
    rw [String.append_assoc]
    rfl

def c4Cfg : SyncConfig := { validProjects := ["SECO"], transitionInReview := none, transitionDone := none }

def c4World : World :=
  { issueStatus := 404, linksGetOk := true, links := [], linkPostStatus := 201,
    commentPostStatus := 201, transGetStatus := 200, transitions := [],
    transPostStatus := 204 }

def c4PR : PRData :=
  { number := 3, title := "SECO-9 follow-up", body := "", htmlUrl := "https://github.com/o/r/pull/3",
    state := "open", merged := false, headRef := "", baseRef := "main",
    repo := "o/r", user := "bob", mergeCommitSha := "" }

/-- C4 witness: the theorem applied to a concrete world whose issue GET
returns 404. -/
theorem C4_witness :
    process_pull_request c4Cfg c4World "opened" c4PR =
      { calls := [ApiCall.verifyIssue "SECO-9"]
        alerts := [issueNotFoundAlert "SECO-9"]
        exitCode := 1 } ∧
    (∀ c ∈ (process_pull_request c4Cfg c4World "opened" c4PR).calls, isMutation c = false) ∧
    (∃ s, issueNotFoundAlert "SECO-9" = "::error::" ++ s) :=
  C4_verify_gate c4Cfg c4World "opened" c4PR "SECO-9" (by decide) (by decide)

theorem pyTruthy_getD_ne (o : Option String) (h : pyTruthyStr o = true) :
    ¬ (o.getD "" = "") := by
  cases o with
  | none => simp [pyTruthyStr] at h
  | some s => simpa [pyTruthyStr] using h

/-! ## Claim C5 -/

def c5Cfg : SyncConfig :=
  { validProjects := ["SECO"], transitionInReview := some "In Review",
    transitionDone := some "Done" }

def c5World : World :=
  { issueStatus := 200, linksGetOk := true, links := [], linkPostStatus := 201,
    commentPostStatus := 201, transGetStatus := 200,
    transitions := [{ id := "21", name := "In Review" }, { id := "31", name := "Done" }],
    transPostStatus := 204 }

def c5PR : PRData :=
  { number := 7, title := "t", body := "", htmlUrl := "https://github.com/o/r/pull/7",
    state := "open", merged := false, headRef := "feature/SECO-1-x", baseRef := "main",
    repo := "o/r", user := "alice", mergeCommitSha := "" }

/-- C5 counterexample: for action "reopened" (with a key found, the
issue verified, and an in-review transition configured) the engine posts
no comment and attempts no transition, contrary to the claim that every
action in {opened, reopened, ready_for_review, synchronize} gets a
comment naming the actor and an attempted transition. -/
theorem C5_counterexample :
    get_first_jira_key c5Cfg.validProjects [c5PR.headRef, c5PR.title, c5PR.body] =
      some "SECO-1" ∧
    pyTruthyStr c5Cfg.transitionInReview = true ∧
    (process_pull_request c5Cfg c5World "reopened" c5PR).exitCode = 0 ∧
    (process_pull_request c5Cfg c5World "reopened" c5PR).calls.filter isCommentCall = [] ∧
    (process_pull_request c5Cfg c5World "reopened" c5PR).calls.filter isTransitionCall = [] := by
  decide

/-- C5 (amended): with a key found and the issue verified — for action
"opened" the engine posts exactly one comment (which names the actor and
the PR URL) and, when an in-review transition is configured, attempts it;
for "ready_for_review" it posts exactly one comment (naming the PR URL
but not the actor) and likewise attempts the configured transition; for
"reopened" and "synchronize" it only ensures the remote link — no
comment, no transition. -/
theorem C5_amended_actions (cfg : SyncConfig) (w : World) (pr : PRData) (key : String)
    (hk : get_first_jira_key cfg.validProjects [pr.headRef, pr.title, pr.body] = some key)
    (hv : w.issueStatus = 200) :
    ((process_pull_request cfg w "opened" pr).calls.filter isCommentCall =
        [ApiCall.postComment key (openedComment pr.user pr.htmlUrl)]) ∧
    (∃ x y, openedComment pr.user pr.htmlUrl = x ++ pr.user ++ y ++ pr.htmlUrl) ∧
    (pyTruthyStr cfg.transitionInReview = true →
       ApiCall.getTransitions key ∈ (process_pull_request cfg w "opened" pr).calls) ∧
    ((process_pull_request cfg w "ready_for_review" pr).calls.filter isCommentCall =
        [ApiCall.postComment key (readyComment pr.htmlUrl)]) ∧
    (pyTruthyStr cfg.transitionInReview = true →
       ApiCall.getTransitions key ∈
         (process_pull_request cfg w "ready_for_review" pr).calls) ∧
    (∀ a ∈ ["reopened", "synchronize"],
       (process_pull_request cfg w a pr).calls.filter isCommentCall = [] ∧
       (process_pull_request cfg w a pr).calls.filter isTransitionCall = [] ∧
       ApiCall.getRemoteLinks key ∈ (process_pull_request cfg w a pr).calls) := by
  have hop := process_run_eq cfg w "opened" pr key hk hv
  have hrd := process_run_eq cfg w "ready_for_review" pr key hk hv
  refine ⟨?_, ⟨"üîó Pull Request opened by ", ": ", rfl⟩, ?_, ?_, ?_, ?_⟩
  · rw [hop]
    simp only [List.filter_append, (link_calls_classes w key pr).1]
    rw [actionCalls, if_pos rfl]
    cases htr : pyTruthyStr cfg.transitionInReview <;>
      simp [htr, add_comment, isCommentCall, trans_calls_no_comment, List.filter_append]
  · intro htr
    rw [hop]
    refine List.mem_append.mpr (Or.inr ?_)
    rw [actionCalls, if_pos rfl]
    refine List.mem_append.mpr (Or.inr ?_)
    rw [if_pos htr]
    exact trans_calls_has_get w key _ (pyTruthy_getD_ne _ htr)
  · rw [hrd]
    simp only [List.filter_append, (link_calls_classes w key pr).1]
    rw [actionCalls, if_neg (by decide), if_neg (by decide), if_pos rfl]
    cases htr : pyTruthyStr cfg.transitionInReview <;>
      simp [htr, add_comment, isCommentCall, trans_calls_no_comment, List.filter_append]
  · intro htr
    rw [hrd]
    refine List.mem_append.mpr (Or.inr ?_)
    rw [actionCalls, if_neg (by decide), if_neg (by decide), if_pos rfl]
    refine List.mem_append.mpr (Or.inr ?_)
    rw [if_pos htr]
    exact trans_calls_has_get w key _ (pyTruthy_getD_ne _ htr)
  · intro a ha
    have hac : actionCalls cfg w key a pr = [] := by
      rcases List.mem_cons.mp ha with rfl | ha2
      · rw [actionCalls, if_neg (by decide), if_neg (by decide), if_neg (by decide)]
      · rcases List.mem_cons.mp ha2 with rfl | ha3
        · rw [actionCalls, if_neg (by decide), if_neg (by decide), if_neg (by decide)]
        · simp at ha3
    rw [process_run_eq cfg w a pr key hk hv]
    refine ⟨?_, ?_, ?_⟩
    · simp [List.filter_append, (link_calls_classes w key pr).1, hac, isCommentCall]
    · simp [List.filter_append, (link_calls_classes w key pr).2.1, hac, isTransitionCall]
    · refine List.mem_append.mpr (Or.inl (List.mem_append.mpr (Or.inr ?_)))
      exact (link_calls_classes w key pr).2.2

/-- C5 witness: the amended theorem applied to a concrete "opened"
event. -/
theorem C5_witness :
    (process_pull_request c5Cfg c5World "opened" c5PR).calls.filter isCommentCall =
      [ApiCall.postComment "SECO-1" (openedComment c5PR.user c5PR.htmlUrl)] ∧
    ApiCall.getTransitions "SECO-1" ∈
      (process_pull_request c5Cfg c5World "opened" c5PR).calls :=
  ⟨(C5_amended_actions c5Cfg c5World c5PR "SECO-1" (by decide) rfl).1,
   (C5_amended_actions c5Cfg c5World c5PR "SECO-1" (by decide) rfl).2.2.1 (by decide)⟩

/-! ## Claim C6 -/

def c6Cfg : SyncConfig :=
  { validProjects := ["SECO"], transitionInReview := some "In Review",
    transitionDone := some "Done" }

def c6World : World :=
  { issueStatus := 200, linksGetOk := true, links := [], linkPostStatus := 201,
    commentPostStatus := 201, transGetStatus := 200,
    transitions := [{ id := "21", name := "In Review" }], transPostStatus := 204 }

def c6PR : PRData :=
  { number := 9, title := "SECO-1 tweak", body := "", htmlUrl := "https://github.com/o/r/pull/9",
    state := "open", merged := false, headRef := "", baseRef := "main",
    repo := "o/r", user := "carol", mergeCommitSha := "" }

/-- C6 counterexample: for the out-of-set action "labeled" with a key
found and verified, the run is not a no-op — it still performs the
remote-link mutation — and emits no informational notice (though it does
exit 0). -/
theorem C6_counterexample :
    (process_pull_request c6Cfg c6World "labeled" c6PR).calls.filter isMutation =
      [ApiCall.postRemoteLink "SECO-1" c6PR.htmlUrl] ∧
    (process_pull_request c6Cfg c6World "labeled" c6PR).alerts = [] ∧
    (process_pull_request c6Cfg c6World "labeled" c6PR).exitCode = 0 := by
  decide

/-- C6 (amended): for any action outside {opened, closed, reopened,
ready_for_review, synchronize}, with a key found and the issue verified,
the run exits 0 and posts no comment and attempts no transition, but it
still issues the remote-link calls (a Jira mutation when the link is
absent) and emits no annotation. -/
theorem C6_amended_other_actions (cfg : SyncConfig) (w : World) (action : String)
    (pr : PRData) (key : String)
    (hk : get_first_jira_key cfg.validProjects [pr.headRef, pr.title, pr.body] = some key)
    (hv : w.issueStatus = 200)
    (ha : action ∉ ["opened", "closed", "reopened", "ready_for_review", "synchronize"]) :
    (process_pull_request cfg w action pr).exitCode = 0 ∧
    (process_pull_request cfg w action pr).alerts = [] ∧
    (process_pull_request cfg w action pr).calls.filter isCommentCall = [] ∧
    (process_pull_request cfg w action pr).calls.filter isTransitionCall = [] ∧
    ApiCall.getRemoteLinks key ∈ (process_pull_request cfg w action pr).calls := by
  have h1 : ¬ action = "opened" := fun h => ha (by simp [h])
  have h2 : ¬ action = "closed" := fun h => ha (by simp [h])
  have h3 : ¬ action = "ready_for_review" := fun h => ha (by simp [h])
  have hac : actionCalls cfg w key action pr = [] := by
    rw [actionCalls, if_neg h1, if_neg h2, if_neg h3]
  rw [process_run_eq cfg w action pr key hk hv]
  refine ⟨rfl, rfl, ?_, ?_, ?_⟩
  · simp [List.filter_append, (link_calls_classes w key pr).1, hac, isCommentCall]
  · simp [List.filter_append, (link_calls_classes w key pr).2.1, hac, isTransitionCall]
  · exact List.mem_append.mpr (Or.inl (List.mem_append.mpr
      (Or.inr (link_calls_classes w key pr).2.2)))

/-- C6 witness: the amended theorem applied to the concrete "labeled"
event. -/
theorem C6_witness :
    (process_pull_request c6Cfg c6World "labeled" c6PR).exitCode = 0 ∧
    (process_pull_request c6Cfg c6World "labeled" c6PR).calls.filter isCommentCall = [] :=
  ⟨(C6_amended_other_actions c6Cfg c6World "labeled" c6PR "SECO-1" (by decide) rfl
      (by decide)).1,
   (C6_amended_other_actions c6Cfg c6World "labeled" c6PR "SECO-1" (by decide) rfl
      (by decide)).2.2.1⟩

/-! ## Claim C7 -/

/-- C7: for a closed PR with a key found and the issue verified — if
merged, the engine posts exactly one comment, that comment ends with the
merge commit SHA, and when a "done" transition is configured it attempts
it; if not merged, it posts exactly the closed-without-merge comment and
makes no transition call at all. -/
theorem C7_closed_pr (cfg : SyncConfig) (w : World) (pr : PRData) (key : String)
    (hk : get_first_jira_key cfg.validProjects [pr.headRef, pr.title, pr.body] = some key)
    (hv : w.issueStatus = 200) :
    (pr.merged = true →
       (process_pull_request cfg w "closed" pr).calls.filter isCommentCall =
         [ApiCall.postComment key (mergedComment pr.htmlUrl pr.mergeCommitSha)] ∧
       (∃ x, mergedComment pr.htmlUrl pr.mergeCommitSha = x ++ pr.mergeCommitSha) ∧
       (pyTruthyStr cfg.transitionDone = true →
          ApiCall.getTransitions key ∈ (process_pull_request cfg w "closed" pr).calls)) ∧
    (pr.merged = false →
       (process_pull_request cfg w "closed" pr).calls.filter isCommentCall =
         [ApiCall.postComment key (closedComment pr.htmlUrl)] ∧
       (process_pull_request cfg w "closed" pr).calls.filter isTransitionCall = []) := by
  have hcl := process_run_eq cfg w "closed" pr key hk hv
  constructor
  · intro hm
    refine ⟨?_, ⟨"‚úÖ Pull Request merged: " ++ pr.htmlUrl ++ "\nMerge commit: ", rfl⟩, ?_⟩
    · rw [hcl]
      simp only [List.filter_append, (link_calls_classes w key pr).1]
      rw [actionCalls, if_neg (by decide), if_pos rfl, if_pos hm]
      cases htr : pyTruthyStr cfg.transitionDone <;>
        simp [htr, add_comment, isCommentCall, trans_calls_no_comment, List.filter_append]
    · intro htr
      rw [hcl]
      refine List.mem_append.mpr (Or.inr ?_)
      rw [actionCalls, if_neg (by decide), if_pos rfl, if_pos hm]
      refine List.mem_append.mpr (Or.inr ?_)
      rw [if_pos htr]
      exact trans_calls_has_get w key _ (pyTruthy_getD_ne _ htr)
  · intro hm
    have hm' : ¬ pr.merged = true := by simp [hm]
    constructor
    · rw [hcl]
      simp only [List.filter_append, (link_calls_classes w key pr).1]
      rw [actionCalls, if_neg (by decide), if_pos rfl, if_neg hm']
      simp [add_comment, isCommentCall]
    · rw [hcl]
      simp only [List.filter_append, (link_calls_classes w key pr).2.1]
      rw [actionCalls, if_neg (by decide), if_pos rfl, if_neg hm']
      simp [add_comment, isTransitionCall]

def c7Cfg : SyncConfig :=
  { validProjects := ["SECO"], transitionInReview := some "In Review",
    transitionDone := some "Done" }

def c7World : World :=
  { issueStatus := 200, linksGetOk := true, links := [], linkPostStatus := 201,
    commentPostStatus := 201, transGetStatus := 200,
    transitions := [{ id := "31", name := "Done" }], transPostStatus := 204 }

def c7PRMerged : PRData :=
  { number := 11, title := "SECO-4 fix", body := "", htmlUrl := "https://github.com/o/r/pull/11",
    state := "closed", merged := true, headRef := "", baseRef := "main",
    repo := "o/r", user := "dave", mergeCommitSha := "abc123def" }

def c7PRUnmerged : PRData :=
  { number := 12, title := "SECO-4 drop", body := "", htmlUrl := "https://github.com/o/r/pull/12",
    state := "closed", merged := false, headRef := "", baseRef := "main",
    repo := "o/r", user := "dave", mergeCommitSha := "" }

/-- C7 witness: the theorem applied to concrete merged and unmerged
closed events. -/
theorem C7_witness :
    (process_pull_request c7Cfg c7World "closed" c7PRMerged).calls.filter isCommentCall =
      [ApiCall.postComment "SECO-4"
        (mergedComment c7PRMerged.htmlUrl c7PRMerged.mergeCommitSha)] ∧
    ApiCall.getTransitions "SECO-4" ∈
      (process_pull_request c7Cfg c7World "closed" c7PRMerged).calls ∧
    (process_pull_request c7Cfg c7World "closed" c7PRUnmerged).calls.filter
      isTransitionCall = [] :=
  ⟨((C7_closed_pr c7Cfg c7World c7PRMerged "SECO-4" (by decide) rfl).1 rfl).1,
   ((C7_closed_pr c7Cfg c7World c7PRMerged "SECO-4" (by decide) rfl).1 rfl).2.2 (by decide),
   ((C7_closed_pr c7Cfg c7World c7PRUnmerged "SECO-4" (by decide) rfl).2 rfl).2⟩

/-! ## Claim C8 -/

/-- C8: when no Jira key is found in branch ref, title or body, the run
makes no API call, prints the `::notice::` annotation, and exits 0. -/
theorem C8_no_key_soft_skip (cfg : SyncConfig) (w : World) (action : String)
    (pr : PRData)
    (hk : get_first_jira_key cfg.validProjects [pr.headRef, pr.title, pr.body] = none) :
    process_pull_request cfg w action pr =
      { calls := [], alerts := [noKeyNotice], exitCode := 0 } ∧
    (∃ s, noKeyNotice = "::notice::" ++ s) := by
  constructor
  · simp only [process_pull_request, hk]
  · exact ⟨"No Jira key found in PR. Ensure branch name or PR title contains a valid Jira issue key.",
      rfl⟩

def c8Cfg : SyncConfig :=
  { validProjects := ["SECO"], transitionInReview := none, transitionDone := none }

def c8World : World :=
  { issueStatus := 200, linksGetOk := true, links := [], linkPostStatus := 201,
    commentPostStatus := 201, transGetStatus := 200, transitions := [],
    transPostStatus := 204 }

def c8PR : PRData :=
  { number := 2, title := "", body := "", htmlUrl := "https://github.com/o/r/pull/2",
    state := "open", merged := false, headRef := "", baseRef := "main",
    repo := "o/r", user := "erin", mergeCommitSha := "" }

/-- C8 witness: the theorem applied to a concrete event with no key
anywhere. -/
theorem C8_witness :
    process_pull_request c8Cfg c8World "opened" c8PR =
      { calls := [], alerts := [noKeyNotice], exitCode := 0 } :=
  (C8_no_key_soft_skip c8Cfg c8World "opened" c8PR (by decide)).1

/-! ## Claim C9 -/

theorem findTransition_sound (target : String) :
    ∀ (ts : List JTransition) (t : JTransition),
      findTransition target ts = some t →
      t ∈ ts ∧ (t.id = target ∨ pyLower t.name = pyLower target) := by
  intro ts
  induction ts with
  | nil => intro t h; simp [findTransition] at h
  | cons a as ih =>
    intro t h
    rw [findTransition] at h
    split at h
    · rename_i hcond
      cases h
      exact ⟨List.mem_cons_self a as, hcond⟩
    · exact ⟨List.mem_cons_of_mem a (ih t h).1, (ih t h).2⟩

/-- C9: transition resolution matches by exact identifier equality or
case-insensitive name equality; when no available transition matches,
`transition_issue` makes no execution POST and reports success; a
non-success execution response yields a `false` (warning) result; and a
run whose issue was verified always exits 0 — a failed transition never
aborts the process. -/
theorem C9_transition_resolution (w : World) (key target : String)
    (hne : ¬ target = "") (hg : w.transGetStatus = 200) :
    (∀ t, findTransition target w.transitions = some t →
       t ∈ w.transitions ∧ (t.id = target ∨ pyLower t.name = pyLower target)) ∧
    (findTransition target w.transitions = none →
       transition_issue w key target = (true, [ApiCall.getTransitions key])) ∧
    (∀ t, findTransition target w.transitions = some t → ¬ t.id = "" →
       ¬ w.transPostStatus = 200 → ¬ w.transPostStatus = 204 →
       transition_issue w key target =
         (false, [ApiCall.getTransitions key, ApiCall.postTransition key t.id])) ∧
    (∀ (cfg : SyncConfig) (action : String) (pr : PRData) (key2 : String),
       get_first_jira_key cfg.validProjects [pr.headRef, pr.title, pr.body] = some key2 →
       w.issueStatus = 200 →
       (process_pull_request cfg w action pr).exitCode = 0) := by
  have hg' : ¬ ((!(w.transGetStatus = 200 : Bool)) = true) := by simp [hg]
  refine ⟨fun t h => findTransition_sound target w.transitions t h, ?_, ?_, ?_⟩
  · intro hf
    rw [transition_issue, if_neg hne, if_neg hg', hf]
  · intro t hf hid hp1 hp2
    rw [transition_issue, if_neg hne, if_neg hg']
    simp only [hf]
    rw [if_neg hid, if_neg (by simp [hp1, hp2])]
  · intro cfg action pr key2 hk2 hv2
    rw [process_run_eq cfg w action pr key2 hk2 hv2]

def c9World : World :=
  { issueStatus := 200, linksGetOk := true, links := [], linkPostStatus := 201,
    commentPostStatus := 201, transGetStatus := 200,
    transitions := [{ id := "31", name := "Done" }], transPostStatus := 500 }

/-- C9 witness: a world with one transition ("Done", id 31) and a failing
execution POST: the unmatched target "In Review" succeeds with only the
GET; the case-insensitively matched target "done" executes and reports
failure. -/
theorem C9_witness :
    transition_issue c9World "SECO-1" "In Review" =
      (true, [ApiCall.getTransitions "SECO-1"]) ∧
    transition_issue c9World "SECO-1" "done" =
      (false, [ApiCall.getTransitions "SECO-1", ApiCall.postTransition "SECO-1" "31"]) :=
  ⟨(C9_transition_resolution c9World "SECO-1" "In Review" (by decide) rfl).2.1 (by decide),
   (C9_transition_resolution c9World "SECO-1" "done" (by decide) rfl).2.2.1
     { id := "31", name := "Done" } (by decide) (by decide) (by decide) (by decide)⟩

/-! ## The metrics exporter (export_metrics.MetricsExporter)

Timestamps are modelled as exact rationals (seconds since the epoch, the
value `datetime.fromisoformat` parsing yields);
`pr.get("merged_at")` being `None`/empty is `Option.none`; the
`created_at[:7]` month slice is carried as a separate field.  Python
floats are modelled by `ℚ` and `round(x, 2)` by exact round-half-to-even
at two decimals. -/

attribute [local semireducible] Rat.sub Rat.add Rat.mul Rat.inv

/-- Floor of a rational, computed on the numerator/denominator pair
(`Int.fdiv` is floor division). -/
def ratFloor (q : ℚ) : ℤ :=
  q.num.fdiv q.den

/-- Round to the nearest integer, ties to even (Python `round`). -/
def roundHalfEven (q : ℚ) : ℤ :=
  if q - (ratFloor q : ℚ) < 1 / 2 then ratFloor q
  else if (1 : ℚ) / 2 < q - (ratFloor q : ℚ) then ratFloor q + 1
  else if ratFloor q % 2 = 0 then ratFloor q else ratFloor q + 1

/-- Python `round(q, 2)`. -/
def round2 (q : ℚ) : ℚ :=
  (roundHalfEven (q * 100) : ℚ) / 100

/-- A PR row as consumed by `calculate_metrics`. -/
structure MPR where
  state : String
  title : String
  body : String
  headRef : String
  created_epoch : ℚ
  merged_epoch : Option ℚ
  created_month : String
deriving DecidableEq, Repr

/-- `MetricsExporter.extract_jira_key`: `re.search` of the bounded
pattern over head ref, then title, then body (the first `findall` match
is the leftmost match, which is what `re.search` returns); `""` when
nothing matches. -/
def extract_jira_key (pr : MPR) : String :=
  match findBoundedKeys pr.headRef with
  | k :: _ => k
  | [] =>
    match findBoundedKeys pr.title with
    | k :: _ => k
    | [] =>
      match findBoundedKeys pr.body with
      | k :: _ => k
      | [] => ""

/-- `d[k] = d.get(k, 0) + 1` on an insertion-ordered dict. -/
def bump : List (String × Nat) → String → List (String × Nat)
  | [], k => [(k, 1)]
  | (k', v) :: rest, k =>
    if k' = k then (k', v + 1) :: rest else (k', v) :: bump rest k

/-- The `metrics` dict of `calculate_metrics` (the
`jira_compliance_rate` entry is added before returning; it is a field
here, assigned on both final branches). -/
structure Metrics where
  total_prs : Nat
  merged_prs : Nat
  open_prs : Nat
  closed_without_merge : Nat
  with_jira_key : Nat
  without_jira_key : Nat
  avg_time_to_merge_hours : ℚ
  avg_review_time_hours : ℚ
  prs_by_project : List (String × Nat)
  monthly_trend : List (String × Nat)
  jira_compliance_rate : ℚ
deriving DecidableEq, Repr

def initMetrics (prs : List MPR) : Metrics :=
  { total_prs := prs.length, merged_prs := 0, open_prs := 0,
    closed_without_merge := 0, with_jira_key := 0, without_jira_key := 0,
    avg_time_to_merge_hours := 0, avg_review_time_hours := 0,
    prs_by_project := [], monthly_trend := [], jira_compliance_rate := 0 }

/-- Jira-key tracking part of the loop body. -/
def stepKey (m : Metrics) (pr : MPR) : Metrics :=
  if !(extract_jira_key pr = "") then
    { m with with_jira_key := m.with_jira_key + 1,
             prs_by_project :=
               bump m.prs_by_project (projectOfKey (extract_jira_key pr)) }
  else
    { m with without_jira_key := m.without_jira_key + 1 }

/-- State-tracking part of the loop body (`if state == "open" / elif
merged_at / else`), also accumulating the merge time in hours. -/
def stepState (m : Metrics) (times : List ℚ) (pr : MPR) : Metrics × List ℚ :=
  if pr.state = "open" then ({ m with open_prs := m.open_prs + 1 }, times)
  else
    match pr.merged_epoch with
    | some t =>
      ({ m with merged_prs := m.merged_prs + 1 },
       times ++ [(t - pr.created_epoch) / 3600])
    | none => ({ m with closed_without_merge := m.closed_without_merge + 1 }, times)

/-- Monthly-trend update (the last statement of the loop body). -/
def Metrics.replaceMonthly (m : Metrics) (month : String) : Metrics :=
  { m with monthly_trend := bump m.monthly_trend month }

/-- One iteration of the `for pr in prs` loop. -/
def metricsStep (acc : Metrics × List ℚ) (pr : MPR) : Metrics × List ℚ :=
  ((stepState (stepKey acc.1 pr) acc.2 pr).1.replaceMonthly pr.created_month,
   (stepState (stepKey acc.1 pr) acc.2 pr).2)

/-- `MetricsExporter.calculate_metrics`. -/
def calculate_metrics (prs : List MPR) : Metrics :=
  let res := prs.foldl metricsStep (initMetrics prs, [])
  let m :=
    if !res.2.isEmpty then
      { res.1 with
          avg_time_to_merge_hours := round2 (res.2.sum / (res.2.length : ℚ)) }
    else res.1
  if m.total_prs > 0 then
    { m with
        jira_compliance_rate := round2 ((m.with_jira_key : ℚ) / (m.total_prs : ℚ) * 100) }
  else
    { m with jira_compliance_rate := 0 }

/-- The merge duration, in hours, the loop records for one PR: present
exactly when the state is not "open" and `merged_at` is set. -/
def prMergeTime (pr : MPR) : Option ℚ :=
  if pr.state = "open" then none
  else
    match pr.merged_epoch with
    | some t => some ((t - pr.created_epoch) / 3600)
    | none => none

/-- All merge durations the loop collects, in order. -/
def mergeTimes (prs : List MPR) : List ℚ :=
  prs.filterMap prMergeTime

/-- Number of PRs for which the metrics extractor finds a Jira key. -/
def countWithKey (prs : List MPR) : Nat :=
  (prs.filter fun pr => !(extract_jira_key pr = "")).length

/-- The claim's reading of the average: arithmetic mean of
(merged_at − created_at) in hours over exactly the merged PRs (those
with `merged_at` set), rounded to two decimals. -/
def specAvgOverMerged (prs : List MPR) : ℚ :=
  round2 ((((prs.filter fun pr => !(pr.merged_epoch = none)).map
      (fun pr => (pr.merged_epoch.getD 0 - pr.created_epoch) / 3600)).sum) /
    (((prs.filter fun pr => !(pr.merged_epoch = none)).length : ℚ)))

def c10PR : MPR :=
  { state := "open", title := "", body := "", headRef := "",
    created_epoch := 0, merged_epoch := some 3600, created_month := "2025-01" }

/-! ## Claim C10 -/

/-- C10 counterexample: a PR with state "open" but merged_at set is
counted as open by the loop (`if state == "open"` is checked first), so
its merge time is not collected: `avg_time_to_merge_hours` is 0 while
the mean over "exactly the merged PRs" (merged_at set) is 1 hour. -/
theorem C10_counterexample :
    (calculate_metrics [c10PR]).avg_time_to_merge_hours = 0 ∧
    specAvgOverMerged [c10PR] = 1 ∧
    ¬ (calculate_metrics [c10PR]).avg_time_to_merge_hours =
        specAvgOverMerged [c10PR] := by
  decide

theorem metricsStep_total (acc : Metrics × List ℚ) (pr : MPR) :
    (metricsStep acc pr).1.total_prs = acc.1.total_prs := by
  rw [metricsStep, Metrics.replaceMonthly, stepState, stepKey]
  repeat' split
  all_goals rfl

theorem metricsStep_avg (acc : Metrics × List ℚ) (pr : MPR) :
    (metricsStep acc pr).1.avg_time_to_merge_hours =
      acc.1.avg_time_to_merge_hours := by
  rw [metricsStep, Metrics.replaceMonthly, stepState, stepKey]
  repeat' split
  all_goals rfl

theorem metricsStep_rate (acc : Metrics × List ℚ) (pr : MPR) :
    (metricsStep acc pr).1.jira_compliance_rate =
      acc.1.jira_compliance_rate := by
  rw [metricsStep, Metrics.replaceMonthly, stepState, stepKey]
  repeat' split
  all_goals rfl

theorem metricsStep_counts3 (acc : Metrics × List ℚ) (pr : MPR) :
    (metricsStep acc pr).1.open_prs + (metricsStep acc pr).1.merged_prs +
      (metricsStep acc pr).1.closed_without_merge =
    acc.1.open_prs + acc.1.merged_prs + acc.1.closed_without_merge + 1 := by
  rw [metricsStep, Metrics.replaceMonthly, stepState, stepKey]
  repeat' split
  all_goals simp
  all_goals omega

theorem metricsStep_withKey (acc : Metrics × List ℚ) (pr : MPR) :
    (metricsStep acc pr).1.with_jira_key =
      acc.1.with_jira_key + (if extract_jira_key pr = "" then 0 else 1) := by
  rw [metricsStep, Metrics.replaceMonthly, stepState, stepKey]
  by_cases hk : extract_jira_key pr = "" <;>
    (simp only [hk]; repeat' split; all_goals simp)

theorem metricsStep_sum2 (acc : Metrics × List ℚ) (pr : MPR) :
    (metricsStep acc pr).1.with_jira_key + (metricsStep acc pr).1.without_jira_key =
      acc.1.with_jira_key + acc.1.without_jira_key + 1 := by
  rw [metricsStep, Metrics.replaceMonthly, stepState, stepKey]
  repeat' split
  all_goals simp
  all_goals omega

theorem metricsStep_times (acc : Metrics × List ℚ) (pr : MPR) :
    (metricsStep acc pr).2 = acc.2 ++ (prMergeTime pr).toList := by
  rw [metricsStep, stepState, prMergeTime]
  repeat' split
  all_goals simp_all

theorem foldl_metrics_total : ∀ (prs : List MPR) (acc : Metrics × List ℚ),
    (prs.foldl metricsStep acc).1.total_prs = acc.1.total_prs := by
  intro prs
  induction prs with
  | nil => intro acc; rfl
  | cons pr rest ih =>
    intro acc
    rw [List.foldl_cons, ih (metricsStep acc pr), metricsStep_total]

theorem foldl_metrics_avg : ∀ (prs : List MPR) (acc : Metrics × List ℚ),
    (prs.foldl metricsStep acc).1.avg_time_to_merge_hours =
      acc.1.avg_time_to_merge_hours := by
  intro prs
  induction prs with
  | nil => intro acc; rfl
  | cons pr rest ih =>
    intro acc
    rw [List.foldl_cons, ih (metricsStep acc pr), metricsStep_avg]

theorem foldl_metrics_counts3 : ∀ (prs : List MPR) (acc : Metrics × List ℚ),
    (prs.foldl metricsStep acc).1.open_prs +
      (prs.foldl metricsStep acc).1.merged_prs +
      (prs.foldl metricsStep acc).1.closed_without_merge =
    acc.1.open_prs + acc.1.merged_prs + acc.1.closed_without_merge + prs.length := by
  intro prs
  induction prs with
  | nil => intro acc; rfl
  | cons pr rest ih =>
    intro acc
    rw [List.foldl_cons, ih (metricsStep acc pr)]
    rw [metricsStep_counts3]
    simp
    omega

theorem foldl_metrics_sum2 : ∀ (prs : List MPR) (acc : Metrics × List ℚ),
    (prs.foldl metricsStep acc).1.with_jira_key +
      (prs.foldl metricsStep acc).1.without_jira_key =
    acc.1.with_jira_key + acc.1.without_jira_key + prs.length := by
  intro prs
  induction prs with
  | nil => intro acc; rfl
  | cons pr rest ih =>
    intro acc
    rw [List.foldl_cons, ih (metricsStep acc pr)]
    rw [metricsStep_sum2]
    simp
    omega

theorem countWithKey_cons (pr : MPR) (rest : List MPR) :
    countWithKey (pr :: rest) =
      (if extract_jira_key pr = "" then 0 else 1) + countWithKey rest := by
  rw [countWithKey, countWithKey, List.filter_cons]
  by_cases hk : extract_jira_key pr = "" <;> simp [hk] <;> omega

theorem foldl_metrics_withKey : ∀ (prs : List MPR) (acc : Metrics × List ℚ),
    (prs.foldl metricsStep acc).1.with_jira_key =
      acc.1.with_jira_key + countWithKey prs := by
  intro prs
  induction prs with
  | nil => intro acc; simp [countWithKey]
  | cons pr rest ih =>
    intro acc
    rw [List.foldl_cons, ih (metricsStep acc pr), metricsStep_withKey,
        countWithKey_cons]
    by_cases hk : extract_jira_key pr = "" <;> simp [hk] <;> omega

theorem foldl_metrics_times : ∀ (prs : List MPR) (acc : Metrics × List ℚ),
    (prs.foldl metricsStep acc).2 = acc.2 ++ mergeTimes prs := by
  intro prs
  induction prs with
  | nil => intro acc; simp [mergeTimes]
  | cons pr rest ih =>
    intro acc
    rw [List.foldl_cons, ih (metricsStep acc pr), metricsStep_times]
    have : mergeTimes (pr :: rest) = (prMergeTime pr).toList ++ mergeTimes rest := by
      rw [mergeTimes, mergeTimes, List.filterMap_cons]
      cases hp : prMergeTime pr <;> simp [hp]
    rw [this, List.append_assoc]

/-- C10 (amended): for every list of PRs, `avg_time_to_merge_hours` is
the mean of (merged_at − created_at)/3600 rounded to two decimals over
exactly the PRs whose state is not "open" and whose merged_at is set
(0 when there are none); `jira_compliance_rate` equals
(PRs with a Jira key / total PRs) × 100 rounded to two decimals (and 0
for the empty list, where the quotient degenerates to 0); and the
counters partition the input: open + merged + closed-without-merge =
total and with-key + without-key = total = length of the input. -/
theorem C10_amended_metrics (prs : List MPR) :
    (calculate_metrics prs).avg_time_to_merge_hours =
      round2 ((mergeTimes prs).sum / ((mergeTimes prs).length : ℚ)) ∧
    (calculate_metrics prs).jira_compliance_rate =
      round2 ((countWithKey prs : ℚ) / (prs.length : ℚ) * 100) ∧
    (calculate_metrics prs).open_prs + (calculate_metrics prs).merged_prs +
      (calculate_metrics prs).closed_without_merge =
      (calculate_metrics prs).total_prs ∧
    (calculate_metrics prs).with_jira_key +
      (calculate_metrics prs).without_jira_key =
      (calculate_metrics prs).total_prs ∧
    (calculate_metrics prs).total_prs = prs.length ∧
    (calculate_metrics []).jira_compliance_rate = 0 := by
  have htimes : (prs.foldl metricsStep (initMetrics prs, [])).2 = mergeTimes prs := by
    rw [foldl_metrics_times]
    exact List.nil_append _
  have htotal : (prs.foldl metricsStep (initMetrics prs, [])).1.total_prs =
      prs.length := by
    rw [foldl_metrics_total]
    rfl
  have havg0 : (prs.foldl metricsStep (initMetrics prs, [])).1.avg_time_to_merge_hours
      = 0 := by
    rw [foldl_metrics_avg]
    rfl
  have hwith : (prs.foldl metricsStep (initMetrics prs, [])).1.with_jira_key =
      countWithKey prs := by
    rw [foldl_metrics_withKey]
    simp [initMetrics]
  have hsum2 : (prs.foldl metricsStep (initMetrics prs, [])).1.with_jira_key +
      (prs.foldl metricsStep (initMetrics prs, [])).1.without_jira_key =
      prs.length := by
    rw [foldl_metrics_sum2]
    simp [initMetrics]
  have hsum3 : (prs.foldl metricsStep (initMetrics prs, [])).1.open_prs +
      (prs.foldl metricsStep (initMetrics prs, [])).1.merged_prs +
      (prs.foldl metricsStep (initMetrics prs, [])).1.closed_without_merge =
      prs.length := by
    rw [foldl_metrics_counts3]
    simp [initMetrics]
  have hzero : (calculate_metrics []).jira_compliance_rate = 0 := rfl
  simp only [calculate_metrics, htimes]
  by_cases hE : (mergeTimes prs).isEmpty
  · have hEnil : mergeTimes prs = [] := by
      cases hmt : mergeTimes prs
      · rfl
      · rw [hmt] at hE; simp at hE
    have hrhs : round2 ((mergeTimes prs).sum / ((mergeTimes prs).length : ℚ)) = 0 := by
      rw [hEnil]
      simp only [List.sum_nil, List.length_nil, Nat.cast_zero, div_zero]
      decide
    have hc1 : ¬ ((!(mergeTimes prs).isEmpty) = true) := by simp [hE]
    rw [if_neg hc1]
    by_cases hT : (prs.foldl metricsStep (initMetrics prs, [])).1.total_prs > 0
    · rw [if_pos hT]
      dsimp only
      exact ⟨by rw [havg0, hrhs], by rw [hwith, htotal], by rw [hsum3, htotal],
        by rw [hsum2, htotal], htotal, hzero⟩
    · rw [if_neg hT]
      dsimp only
      have hlen : prs.length = 0 := by rw [htotal] at hT; omega
      have hnil : prs = [] := List.length_eq_zero.mp hlen
      have hck : countWithKey prs = 0 := by rw [hnil]; rfl
      have hrhs2 : round2 ((countWithKey prs : ℚ) / (prs.length : ℚ) * 100) = 0 := by
        rw [hck, hlen]
        simp only [Nat.cast_zero, div_zero, zero_div, zero_mul]
        decide
      exact ⟨by rw [havg0, hrhs], by rw [hrhs2], by rw [hsum3, htotal],
        by rw [hsum2, htotal], htotal, hzero⟩
  · have hc2 : (!(mergeTimes prs).isEmpty) = true := by simp [hE]
    rw [if_pos hc2]
    dsimp only
    by_cases hT : (prs.foldl metricsStep (initMetrics prs, [])).1.total_prs > 0
    · rw [if_pos hT]
      dsimp only
      exact ⟨rfl, by rw [hwith, htotal], by rw [hsum3, htotal],
        by rw [hsum2, htotal], htotal, hzero⟩
    · rw [if_neg hT]
      dsimp only
      have hlen : prs.length = 0 := by rw [htotal] at hT; omega
      have hnil : prs = [] := List.length_eq_zero.mp hlen
      have : mergeTimes prs = [] := by rw [hnil]; rfl
      rw [this] at hE
      simp at hE
